import Mathlib

/-!
Verification of the attribute-reconciliation logic of
`src/examples/load_boundaries.py` (Jordan administrative boundaries).

The script joins a boundary dataset (district polygons loaded from a
GeoPackage) with tabular attribute data (a CSV keyed by a `wikidata`
identifier), then derives area (after reprojection to UTM zone 36N) and
population density.  We embed the decision logic shallowly:

* the join-key selection of lines 65-68 (`wikidata_join` column);
* the pandas left merge of lines 71-76 (`districts_merged`), modelled at
  record level with pandas semantics: every left row is kept, an
  unmatched row gets the missing marker (`none`, pandas `NaN`), and a
  left row with several matching right rows is emitted once per match;
* the density derivation of lines 138-140 (`pop_density_per_km2`),
  where the missing marker propagates through division (pandas `NaN`);
* the reprojection-then-area pipeline of lines 131-135 (`districts_utm`,
  `area_km2`), with geometry carrying its area per coordinate system;
* the column-level frame update of lines 65-68, where the assignment
  `districts[wikidata_join] = ...` adds a column to the frame in place.
-/

namespace JordanBoundaries

/-- The long mangled column name observed in the district GeoPackage
(line 65 of `load_boundaries.py`). -/
def longAlias : String := "districts_for_suave_with100K_2_no_wkt_wikidata#hiddenmore"

/-- Join-key selection of lines 65-68: the long alias is tried first; if
it is absent the script reads `districts[wikidata]`, which raises a
`KeyError` (modelled as `Except.error`) when that column is absent too. -/
def resolveJoinKey (cols : List String) : Except String String :=
  if longAlias ∈ cols then Except.ok longAlias
  else if "wikidata" ∈ cols then Except.ok "wikidata"
  else Except.error "KeyError: wikidata"

/-- One administrative unit of the boundary dataset: display name,
resolved join-key value (the `wikidata_join` column) and its polygon
(kept opaque, e.g. as WKT text). -/
structure BoundaryRecord where
  name_en : String
  joinKey : String
  geometry : String
  deriving DecidableEq, Repr

/-- One row of `districts_csv[[wikidata, Diarrheal Diseases per 100K]]`
(line 72): the join key and the numeric measure. -/
structure AttributeRecord where
  wikidata : String
  rate : ℚ
  deriving DecidableEq, Repr

/-- One row of `districts_merged` (lines 71-76): the boundary fields plus
the measure, `none` being the missing marker (pandas `NaN`). -/
structure ReconciledRecord where
  name_en : String
  joinKey : String
  geometry : String
  rate : Option ℚ
  deriving DecidableEq, Repr

/-- The attribute rows whose `wikidata` equals the given key, in source
order: the right-hand matches of the pandas merge for one left row. -/
def matchesFor (key : String) (attrs : List AttributeRecord) : List AttributeRecord :=
  attrs.filter (fun a => a.wikidata == key)

/-- The output rows the left merge emits for one boundary row: the row
with the missing marker when no attribute row matches, otherwise one
output row per matching attribute row (pandas `how=left` semantics). -/
def mergeRow (b : BoundaryRecord) (attrs : List AttributeRecord) : List ReconciledRecord :=
  if matchesFor b.joinKey attrs = [] then
    [⟨b.name_en, b.joinKey, b.geometry, none⟩]
  else
    (matchesFor b.joinKey attrs).map (fun a => ⟨b.name_en, b.joinKey, b.geometry, some a.rate⟩)

/-- `districts.merge(districts_csv[[wikidata, rate]], left_on=wikidata_join,
right_on=wikidata, how=left)` (lines 71-76): left rows in order, each
contributing its merge output rows. -/
def reconcile : List BoundaryRecord → List AttributeRecord → List ReconciledRecord
  | [], _ => []
  | b :: rest, attrs => mergeRow b attrs ++ reconcile rest attrs

/-- The first attribute row matching a key, projected to its measure:
what a unique-key lookup attaches to a boundary row. -/
def attrLookup (key : String) (attrs : List AttributeRecord) : Option ℚ :=
  (attrs.find? (fun a => a.wikidata == key)).map AttributeRecord.rate

/-- Line 140: `districts_utm[population] / districts_utm[area_km2]` for
one row.  A missing population (pandas `NaN`) propagates through the
division, so the result is the missing marker. -/
def pop_density_per_km2 (population : Option ℚ) (area_km2 : ℚ) : Option ℚ :=
  population.map (fun p => p / area_km2)

/-- A polygon viewed through coordinate systems: `areaIn c` is the area
the geometry engine reports when the geometry is expressed in CRS `c`. -/
structure Geometry where
  areaIn : String → ℚ

/-- A GeoDataFrame for the area pipeline: its CRS and its geometry
column. -/
structure GeoFrame where
  crs : String
  geoms : List Geometry

/-- `df.to_crs(target)` (line 132): returns a reprojected copy — same
geometries, expressed in the target CRS. -/
def to_crs (df : GeoFrame) (target : String) : GeoFrame :=
  { crs := target, geoms := df.geoms }

/-- `df.geometry.area`: the area of each geometry, evaluated in the
frame's own CRS. -/
def frameAreas (df : GeoFrame) : List ℚ :=
  df.geoms.map (fun g => g.areaIn df.crs)

/-- Line 132: `districts.to_crs("EPSG:32636")`. -/
def districts_utm (districts : GeoFrame) : GeoFrame :=
  to_crs districts "EPSG:32636"

/-- Line 135: `districts_utm.geometry.area / 1_000_000`, computed on the
reprojected frame. -/
def area_km2 (districts : GeoFrame) : List ℚ :=
  (frameAreas (districts_utm districts)).map (fun a => a / 1000000)

/-- A pandas frame at column granularity for the in-place update of
lines 65-68: named columns of (string) values, plus the geometry
column. -/
structure PFrame where
  cols : List (String × List String)
  geometry : List String
  deriving DecidableEq, Repr

/-- `df[name]` as a total lookup: the column's values when present. -/
def getCol (df : PFrame) (name : String) : Option (List String) :=
  (df.cols.find? (fun c => c.1 == name)).map Prod.snd

/-- Column assignment at list level: replace the column in place when it
exists, otherwise append it as the last column. -/
def setCols (cols : List (String × List String)) (name : String) (v : List String) :
    List (String × List String) :=
  if (cols.find? (fun c => c.1 == name)).isSome then
    cols.map (fun c => if c.1 == name then (name, v) else c)
  else
    cols ++ [(name, v)]

/-- `df[name] = v`: pandas column assignment — the frame keeps its
geometry and all other columns, with the named column set. -/
def setCol (df : PFrame) (name : String) (v : List String) : PFrame :=
  { df with cols := setCols df.cols name v }

/-- Lines 65-68 at frame level: copy the long-alias column into
`wikidata_join` when present, else copy `wikidata`; reading a missing
`wikidata` column raises `KeyError`.  The returned frame is the state of
`districts` after the statement — the assignment mutates it. -/
def addJoinKey (districts : PFrame) : Except String PFrame :=
  match getCol districts longAlias with
  | some v => Except.ok (setCol districts "wikidata_join" v)
  | none =>
    match getCol districts "wikidata" with
    | some v => Except.ok (setCol districts "wikidata_join" v)
    | none => Except.error "KeyError: wikidata"

/-! ### Helper lemmas about the merge -/

lemma matchesFor_cons (key : String) (a : AttributeRecord) (rest : List AttributeRecord) :
    matchesFor key (a :: rest)
      = if a.wikidata = key then a :: matchesFor key rest else matchesFor key rest := by
  simp [matchesFor, List.filter_cons]

lemma matchesFor_eq_nil_of_not_mem (key : String) (attrs : List AttributeRecord)
    (h : key ∉ attrs.map AttributeRecord.wikidata) :
    matchesFor key attrs = [] := by
  induction attrs with
  | nil => rfl
  | cons a rest ih =>
    simp only [List.map_cons, List.mem_cons] at h
    push_neg at h
    rw [matchesFor_cons, if_neg (fun hw => h.1 hw.symm), ih h.2]

lemma mergeRow_of_not_mem (b : BoundaryRecord) (attrs : List AttributeRecord)
    (h : b.joinKey ∉ attrs.map AttributeRecord.wikidata) :
    mergeRow b attrs = [⟨b.name_en, b.joinKey, b.geometry, none⟩] := by
  simp only [mergeRow]
  rw [if_pos (matchesFor_eq_nil_of_not_mem _ _ h)]

lemma mergeRow_of_nodup (b : BoundaryRecord) (attrs : List AttributeRecord)
    (h : (attrs.map AttributeRecord.wikidata).Nodup) :
    mergeRow b attrs = [⟨b.name_en, b.joinKey, b.geometry, attrLookup b.joinKey attrs⟩] := by
  induction attrs with
  | nil => simp [mergeRow, matchesFor, attrLookup]
  | cons a rest ih =>
    simp only [List.map_cons, List.nodup_cons, List.mem_map] at h
    obtain ⟨h1, h2⟩ := h
    by_cases ha : a.wikidata = b.joinKey
    · have hrest : matchesFor b.joinKey rest = [] := by
        apply matchesFor_eq_nil_of_not_mem
        intro hmem
        rcases List.mem_map.mp hmem with ⟨x, hx, hxk⟩
        exact h1 ⟨x, hx, by rw [hxk, ha]⟩
      have hall : matchesFor b.joinKey (a :: rest) = [a] := by
        rw [matchesFor_cons, if_pos ha, hrest]
      simp only [mergeRow, hall]
      simp [attrLookup, List.find?, ha]
    · have hm : matchesFor b.joinKey (a :: rest) = matchesFor b.joinKey rest := by
        rw [matchesFor_cons, if_neg ha]
      have hstep : mergeRow b (a :: rest) = mergeRow b rest := by
        simp only [mergeRow, hm]
      rw [hstep, ih h2]
      have hbeq : (a.wikidata == b.joinKey) = false := by
        simp [ha]
      have hskip : attrLookup b.joinKey (a :: rest) = attrLookup b.joinKey rest := by
        simp [attrLookup, List.find?, hbeq]
      rw [hskip]

lemma reconcile_eq_map_of_nodup (boundaries : List BoundaryRecord)
    (attrs : List AttributeRecord) (h : (attrs.map AttributeRecord.wikidata).Nodup) :
    reconcile boundaries attrs
      = boundaries.map (fun b => ⟨b.name_en, b.joinKey, b.geometry, attrLookup b.joinKey attrs⟩) := by
  induction boundaries with
  | nil => rfl
  | cons b rest ih =>
    simp only [reconcile, List.map_cons, mergeRow_of_nodup b attrs h, ih,
      List.singleton_append]

lemma mem_reconcile (r : ReconciledRecord) (boundaries : List BoundaryRecord)
    (attrs : List AttributeRecord) (hr : r ∈ reconcile boundaries attrs) :
    ∃ b ∈ boundaries, r ∈ mergeRow b attrs := by
  induction boundaries with
  | nil => simp [reconcile] at hr
  | cons b rest ih =>
    simp only [reconcile, List.mem_append] at hr
    rcases hr with hr | hr
    · exact ⟨b, List.mem_cons_self b rest, hr⟩
    · rcases ih hr with ⟨b2, hb2, hm⟩
      exact ⟨b2, List.mem_cons_of_mem _ hb2, hm⟩

lemma rate_none_of_unmatched (b : BoundaryRecord) (attrs : List AttributeRecord)
    (r : ReconciledRecord) (hr : r ∈ mergeRow b attrs)
    (hk : r.joinKey ∉ attrs.map AttributeRecord.wikidata) :
    r.rate = none := by
  by_cases hm : matchesFor b.joinKey attrs = []
  · simp only [mergeRow, if_pos hm, List.mem_singleton] at hr
    rw [hr]
  · simp only [mergeRow, if_neg hm, List.mem_map] at hr
    obtain ⟨a, ha, rfl⟩ := hr
    exfalso
    apply hk
    have hmem := List.mem_filter.mp ha
    exact List.mem_map.mpr ⟨a, hmem.1, by simpa [beq_iff_eq] using hmem.2⟩

/-! ### Helper lemmas about column assignment -/

lemma find?_map_keep (l : List (String × List String)) (n c : String) (v : List String)
    (h : c ≠ n) :
    (l.map (fun x => if x.1 == n then (n, v) else x)).find? (fun x => x.1 == c)
      = l.find? (fun x => x.1 == c) := by
  rw [List.find?_map]
  have hpf : ((fun x : String × List String => x.1 == c)
        ∘ fun x => if x.1 == n then (n, v) else x)
      = fun x : String × List String => x.1 == c := by
    funext x
    by_cases hx : x.1 = n
    · simp [Function.comp, hx]
    · simp [Function.comp, hx]
  rw [hpf]
  cases hfind : l.find? (fun x => x.1 == c) with
  | none => rfl
  | some y =>
    have hy : y.1 = c := by simpa using List.find?_some hfind
    simp [hy, h]

lemma find?_map_hit (l : List (String × List String)) (n : String) (v : List String)
    (h : (l.find? (fun x => x.1 == n)).isSome = true) :
    (l.map (fun x => if x.1 == n then (n, v) else x)).find? (fun x => x.1 == n)
      = some (n, v) := by
  rw [List.find?_map]
  have hpf : ((fun x : String × List String => x.1 == n)
        ∘ fun x => if x.1 == n then (n, v) else x)
      = fun x : String × List String => x.1 == n := by
    funext x
    by_cases hx : x.1 = n
    · simp [Function.comp, hx]
    · simp [Function.comp, hx]
  rw [hpf]
  cases hfind : l.find? (fun x => x.1 == n) with
  | none => rw [hfind] at h; simp at h
  | some y =>
    have hy : y.1 = n := by simpa using List.find?_some hfind
    simp [hy]

lemma find?_append_hit (l : List (String × List String)) (n : String) (v : List String)
    (h : l.find? (fun x => x.1 == n) = none) :
    ((l ++ [(n, v)]).find? (fun x => x.1 == n)) = some (n, v) := by
  rw [List.find?_append, h]
  simp

lemma find?_append_keep (l : List (String × List String)) (n c : String) (v : List String)
    (h : c ≠ n) :
    ((l ++ [(n, v)]).find? (fun x => x.1 == c)) = l.find? (fun x => x.1 == c) := by
  rw [List.find?_append]
  have hlast : List.find? (fun x : String × List String => x.1 == c) [(n, v)] = none := by
    simp [Ne.symm h]
  rw [hlast, Option.or_none]

lemma find?_setCols_self (l : List (String × List String)) (n : String) (v : List String) :
    ((setCols l n v).find? (fun x => x.1 == n)) = some (n, v) := by
  unfold setCols
  split
  next hs => exact find?_map_hit l n v hs
  next hs => exact find?_append_hit l n v (Option.not_isSome_iff_eq_none.mp hs)

lemma find?_setCols_other (l : List (String × List String)) (n c : String) (v : List String)
    (h : c ≠ n) :
    ((setCols l n v).find? (fun x => x.1 == c)) = l.find? (fun x => x.1 == c) := by
  unfold setCols
  split
  next => exact find?_map_keep l n c v h
  next => exact find?_append_keep l n c v h

lemma getCol_setCol_self (df : PFrame) (n : String) (v : List String) :
    getCol (setCol df n v) n = some v := by
  simp [getCol, setCol, find?_setCols_self]

lemma getCol_setCol_other (df : PFrame) (n : String) (v : List String) (c : String)
    (h : c ≠ n) : getCol (setCol df n v) c = getCol df c := by
  simp [getCol, setCol, find?_setCols_other df.cols n c v h]

lemma geometry_setCol (df : PFrame) (n : String) (v : List String) :
    (setCol df n v).geometry = df.geometry := rfl

/-! ### Concrete records used by witnesses and counterexamples -/

def bAmman : BoundaryRecord := ⟨"Amman", "Q1", "POLY_AMMAN"⟩

def bIrbid : BoundaryRecord := ⟨"Irbid", "Q2", "POLY_IRBID"⟩

def aQ1 : AttributeRecord := ⟨"Q1", 1⟩

def aQ1dup : AttributeRecord := ⟨"Q1", 2⟩

def pdemo : PFrame :=
  ⟨[("wikidata", ["Q1", "Q2"])], ["POLY_AMMAN", "POLY_IRBID"]⟩

def pdemoAfter : PFrame :=
  ⟨[("wikidata", ["Q1", "Q2"]), ("wikidata_join", ["Q1", "Q2"])],
    ["POLY_AMMAN", "POLY_IRBID"]⟩

end JordanBoundaries

deriving instance DecidableEq for Except

namespace JordanBoundaries

/-! ### Claims -/

/-- C1 (amended): the output of `reconcile` has the length of the
boundary input whenever the attribute join keys are unique.  (The
unrestricted claim fails: a duplicated attribute key multiplies the
matching boundary row, see the counterexample.) -/
theorem C1_length_eq_of_unique_attrs (boundaries : List BoundaryRecord)
    (attrs : List AttributeRecord)
    (h : (attrs.map AttributeRecord.wikidata).Nodup) :
    (reconcile boundaries attrs).length = boundaries.length := by
  rw [reconcile_eq_map_of_nodup boundaries attrs h, List.length_map]

/-- C1 witness: two boundaries against one attribute row give two output
rows. -/
theorem C1_length_witness :
    (reconcile [bAmman, bIrbid] [aQ1]).length = [bAmman, bIrbid].length :=
  C1_length_eq_of_unique_attrs [bAmman, bIrbid] [aQ1] (by decide)

/-- C1 counterexample: with a duplicated attribute key the left merge
returns two rows for one boundary record, so the output length is not
the input length. -/
theorem C1_counterexample_duplicate_attrs :
    ¬ ((reconcile [bAmman] [aQ1, aQ1dup]).length = [bAmman].length) := by decide

/-- C2 counterexample: when both the long alias and the canonical column
are present, `resolveJoinKey` selects the alias (the alias branch of
lines 65-68 is tried first), not the canonical name `wikidata` as the
claim states. -/
theorem C2_counterexample_alias_wins :
    ¬ (resolveJoinKey [longAlias, "wikidata"] = Except.ok "wikidata") := by decide

/-- C2 (amended): `resolveJoinKey` returns the long-form alias whenever
the alias column is present, and returns the canonical name `wikidata`
when the alias is absent and `wikidata` is present. -/
theorem C2_alias_priority (cols : List String) :
    (longAlias ∈ cols → resolveJoinKey cols = Except.ok longAlias)
    ∧ (longAlias ∉ cols → "wikidata" ∈ cols →
        resolveJoinKey cols = Except.ok "wikidata") := by
  constructor
  · intro h1
    simp [resolveJoinKey, h1]
  · intro h1 h2
    simp [resolveJoinKey, h1, h2]

/-- C2 witness: a dataset carrying only the alias resolves to the
alias. -/
theorem C2_alias_priority_witness :
    resolveJoinKey ["name_en", longAlias] = Except.ok longAlias :=
  (C2_alias_priority ["name_en", longAlias]).1 (by decide)

/-- C3: when neither the long alias nor the canonical `wikidata` column
is present, `resolveJoinKey` fails with an error (the `KeyError` raised
by line 68, the spec's `SchemaMismatch`) instead of proceeding. -/
theorem C3_schema_mismatch_error (cols : List String)
    (h1 : longAlias ∉ cols) (h2 : "wikidata" ∉ cols) :
    resolveJoinKey cols = Except.error "KeyError: wikidata" := by
  simp [resolveJoinKey, h1, h2]

/-- C3 witness: a dataset with unrelated columns only. -/
theorem C3_schema_mismatch_witness :
    resolveJoinKey ["name_en", "name_ar"] = Except.error "KeyError: wikidata" :=
  C3_schema_mismatch_error ["name_en", "name_ar"] (by decide) (by decide)

/-- C4 (code bug): on a duplicated attribute key the merge of lines
71-76 neither fails nor warns nor keeps only the last-seen value — it
silently emits one output row per matching attribute row. -/
theorem C4_duplicate_keys_multiply_rows :
    reconcile [bAmman] [aQ1, aQ1dup]
      = [⟨"Amman", "Q1", "POLY_AMMAN", some 1⟩,
         ⟨"Amman", "Q1", "POLY_AMMAN", some 2⟩] := by decide

/-- C5: a boundary record whose join key matches no attribute row comes
out of `reconcile` with its measure equal to the missing marker `none`,
never a number; and the concrete Amman/Irbid scenario evaluates as the
claim states. -/
theorem C5_unmatched_measures_missing :
    (∀ (boundaries : List BoundaryRecord) (attrs : List AttributeRecord)
        (r : ReconciledRecord), r ∈ reconcile boundaries attrs →
        r.joinKey ∉ attrs.map AttributeRecord.wikidata → r.rate = none)
    ∧ ∀ g1 g2 : String,
        reconcile [⟨"Amman", "Q1", g1⟩, ⟨"Irbid", "Q2", g2⟩] [⟨"Q1", 12.5⟩]
          = [⟨"Amman", "Q1", g1, some 12.5⟩, ⟨"Irbid", "Q2", g2, none⟩] := by
  constructor
  · intro boundaries attrs r hr hk
    rcases mem_reconcile r boundaries attrs hr with ⟨b, _, hm⟩
    exact rate_none_of_unmatched b attrs r hm hk
  · intro g1 g2
    simp [reconcile, mergeRow, matchesFor, List.filter]

/-- C5 witness: the Amman/Irbid scenario at concrete geometries. -/
theorem C5_unmatched_witness :
    reconcile [⟨"Amman", "Q1", "POLY_AMMAN"⟩, ⟨"Irbid", "Q2", "POLY_IRBID"⟩]
        [⟨"Q1", 12.5⟩]
      = [⟨"Amman", "Q1", "POLY_AMMAN", some 12.5⟩,
         ⟨"Irbid", "Q2", "POLY_IRBID", none⟩] :=
  C5_unmatched_measures_missing.2 "POLY_AMMAN" "POLY_IRBID"

/-- C6: a missing population stays missing through the density division
of line 140, for every area value including zero — the result is the
missing marker, never a number (so never zero and never infinite). -/
theorem C6_missing_population_missing_density (a : ℚ) :
    pop_density_per_km2 none a = none := rfl

/-- C7: the pipeline of lines 131-135 evaluates every area in the
projected CRS `EPSG:32636` — the frame whose `.area` is taken is the
reprojected one, whatever the input frame's native CRS was. -/
theorem C7_area_computed_in_projected_crs (districts : GeoFrame) :
    (districts_utm districts).crs = "EPSG:32636"
    ∧ area_km2 districts
      = districts.geoms.map (fun g => g.areaIn "EPSG:32636" / 1000000) := by
  refine ⟨rfl, ?_⟩
  simp [area_km2, frameAreas, districts_utm, to_crs]

/-- C8 counterexample: the key-resolution statement of lines 65-68
mutates the input boundary frame — after it, `districts` carries a new
`wikidata_join` column, so its column set is not unchanged. -/
theorem C8_counterexample_input_frame_mutated :
    addJoinKey pdemo = Except.ok pdemoAfter ∧ ¬ (pdemoAfter.cols = pdemo.cols) := by
  decide

/-- C8 (amended): reconciliation never touches the geometry and never
changes a pre-existing column of the boundary frame, and the derived
area is attached to the reprojected copy which carries the same
geometries; but key resolution does add the `wikidata_join` column to
the input frame in place. -/
theorem C8_geometry_preserved_columns_extended (df df2 : PFrame)
    (h : addJoinKey df = Except.ok df2) :
    df2.geometry = df.geometry
    ∧ (∀ c, c ≠ "wikidata_join" → getCol df2 c = getCol df c)
    ∧ (getCol df2 "wikidata_join").isSome = true
    ∧ ∀ g : GeoFrame, (districts_utm g).geoms = g.geoms := by
  have main : ∀ v : List String,
      (setCol df "wikidata_join" v).geometry = df.geometry
      ∧ (∀ c, c ≠ "wikidata_join" →
          getCol (setCol df "wikidata_join" v) c = getCol df c)
      ∧ (getCol (setCol df "wikidata_join" v) "wikidata_join").isSome = true
      ∧ ∀ g : GeoFrame, (districts_utm g).geoms = g.geoms := by
    intro v
    refine ⟨geometry_setCol df _ v, fun c hc => getCol_setCol_other df _ v c hc, ?_, fun g => rfl⟩
    rw [getCol_setCol_self]
    rfl
  unfold addJoinKey at h
  cases hl : getCol df longAlias with
  | some v =>
    rw [hl] at h
    simp only [Except.ok.injEq] at h
    rw [← h]
    exact main v
  | none =>
    rw [hl] at h
    cases hw : getCol df "wikidata" with
    | some v =>
      rw [hw] at h
      simp only [Except.ok.injEq] at h
      rw [← h]
      exact main v
    | none =>
      rw [hw] at h
      exact absurd h (by simp)

/-- C8 witness: the concrete demonstration frame. -/
theorem C8_preservation_witness :
    pdemoAfter.geometry = pdemo.geometry
    ∧ (∀ c, c ≠ "wikidata_join" → getCol pdemoAfter c = getCol pdemo c)
    ∧ (getCol pdemoAfter "wikidata_join").isSome = true
    ∧ ∀ g : GeoFrame, (districts_utm g).geoms = g.geoms :=
  C8_geometry_preserved_columns_extended pdemo pdemoAfter (by decide)

/-- C9: key resolution and the left merge are deterministic — equal
inputs give equal outputs. -/
theorem C9_deterministic (b1 b2 : List BoundaryRecord) (a1 a2 : List AttributeRecord)
    (c1 c2 : List String) (hb : b1 = b2) (ha : a1 = a2) (hc : c1 = c2) :
    reconcile b1 a1 = reconcile b2 a2 ∧ resolveJoinKey c1 = resolveJoinKey c2 := by
  subst hb
  subst ha
  subst hc
  exact ⟨rfl, rfl⟩

/-- C9 witness: two runs on the demonstration inputs agree. -/
theorem C9_deterministic_witness :
    reconcile [bAmman] [aQ1] = reconcile [bAmman] [aQ1]
    ∧ resolveJoinKey ["wikidata"] = resolveJoinKey ["wikidata"] :=
  C9_deterministic [bAmman] [bAmman] [aQ1] [aQ1] ["wikidata"] ["wikidata"] rfl rfl rfl

/-- C10: with unique attribute keys, `reconcile` is exactly the
order-preserving map that carries each boundary record's fields
unchanged and attaches the looked-up measure. -/
theorem C10_order_content_preserved (boundaries : List BoundaryRecord)
    (attrs : List AttributeRecord)
    (h : (attrs.map AttributeRecord.wikidata).Nodup) :
    reconcile boundaries attrs
      = boundaries.map (fun b =>
          ⟨b.name_en, b.joinKey, b.geometry, attrLookup b.joinKey attrs⟩) :=
  reconcile_eq_map_of_nodup boundaries attrs h

/-- C10 witness: the demonstration inputs in order. -/
theorem C10_order_witness :
    reconcile [bAmman, bIrbid] [aQ1]
      = [bAmman, bIrbid].map (fun b =>
          ⟨b.name_en, b.joinKey, b.geometry, attrLookup b.joinKey [aQ1]⟩) :=
  C10_order_content_preserved [bAmman, bIrbid] [aQ1] (by decide)

end JordanBoundaries
